import Mathlib

/-!
Verification of the fantacicling auction session model.

This file shallowly embeds the session logic of `auction.py` (the
line-oriented front-end) and `auction_tui_backup.py` (the widget-based
front-end of the same repository): the assignment record, the price
parsing performed by `get_team_and_price`, the CSV export performed by
`save_results`, the CSV re-loading performed by `read_riders_from_csv`,
the output-file-name derivation, and the interactive loops of both
front-ends as step functions over an explicit session state.

Modelling conventions:
* Python values stored in the `price` field are `None`, an `int`, or a
  `str`; they are embedded as the inductive `PVal`.
* `str.strip()`, `str.lower()` and `int(...)` are modelled for ASCII
  strings (`pyStrip`, `pyLower`, `pyParseInt`); the inputs the program
  handles are ASCII.
* The `csv` standard-library module is an external collaborator that
  round-trips rows of string fields exactly (quoting is its concern), so
  files are modelled at the record level as `List (List String)`, and
  the CSV writer's rendering of a Python value into a field is modelled
  by `renderTeam` / `renderPrice` exactly as `save_results` computes it.
* Console input is passed to the step functions as explicit arguments.
* In `auction.py`, the end-of-list confirmation after assigning at the
  last index quits exactly like the main-loop `q` key when `q` is
  pressed and otherwise returns to the loop; it is modelled as an
  optional subsequent `Action.quit` in the action stream.
-/

namespace Auction

/-- A Python value stored in the `price` field of a result dict:
`None`, an `int`, or a `str`. -/
inductive PVal where
  | none
  | int (n : Int)
  | str (s : String)
deriving DecidableEq, Repr

/-- One entry of the `results` list: the dict `{'team': ..., 'price': ...}`. -/
structure Assignment where
  team : Option String
  price : PVal
deriving DecidableEq, Repr

/-- The initial value `{'team': None, 'price': None}`. -/
def unassigned : Assignment := ⟨Option.none, PVal.none⟩

/-- Whitespace characters removed by Python `str.strip()` (ASCII subset). -/
def isPySpace (c : Char) : Bool :=
  c = ' ' || c = '\t' || c = '\n' || c = '\r' || c = '\x0b' || c = '\x0c'

/-- Python `s.strip()` on ASCII strings. -/
def pyStrip (s : String) : String :=
  String.mk (((s.toList.dropWhile isPySpace).reverse.dropWhile isPySpace).reverse)

/-- Python `s.lower()` on ASCII strings. -/
def pyLower (s : String) : String :=
  String.mk (s.toList.map Char.toLower)

/-- Numeric value of an ASCII digit character. -/
def digitVal (c : Char) : Nat := c.toNat - 48

/-- Digits of a Python integer literal after the first one: digits with
single underscores allowed between digits (`int("1_0") = 10`,
`int("1__0")` and `int("1_")` fail). -/
def pyDigitsAux : List Char → Nat → Option Nat
  | [], acc => some acc
  | '_' :: c :: rest, acc =>
      if c.isDigit then pyDigitsAux rest (acc * 10 + digitVal c) else Option.none
  | c :: rest, acc =>
      if c.isDigit then pyDigitsAux rest (acc * 10 + digitVal c) else Option.none

/-- A non-empty run of digits (with embedded single underscores),
starting with a digit. -/
def pyDigitPart : List Char → Option Nat
  | [] => Option.none
  | c :: rest => if c.isDigit then pyDigitsAux rest (digitVal c) else Option.none

/-- Python `int(s)` on an already-stripped ASCII string: optional sign
followed by a digit part; anything else raises `ValueError`, modelled
as `Option.none`. -/
def pyParseInt (s : String) : Option Int :=
  match s.toList with
  | '-' :: rest => (pyDigitPart rest).map (fun n => -(n : Int))
  | '+' :: rest => (pyDigitPart rest).map (fun n => (n : Int))
  | cs => (pyDigitPart cs).map (fun n => (n : Int))

/-- The skip words recognized by `get_team_and_price`:
`team.lower() in ('salta', 'skip')`. -/
def skipTokens : List String := ["salta", "skip"]

/-- The price stored by `get_team_and_price` for a stripped price string:
`int(price_str) if price_str else 0`, falling back to the raw string on
`ValueError`. -/
def pyPrice (ps : String) : PVal :=
  if ps = "" then PVal.int 0
  else
    match pyParseInt ps with
    | some n => PVal.int n
    | Option.none => PVal.str ps

/-- `get_team_and_price` of `auction.py`, with the two console inputs
passed explicitly. Returns `none` for a skip (empty or skip-token team),
otherwise the stripped team name and the parsed-or-raw price. -/
def get_team_and_price (teamInput priceInput : String) : Option (String × PVal) :=
  let team := pyStrip teamInput
  if team = "" ∨ pyLower team ∈ skipTokens then Option.none
  else some (team, pyPrice (pyStrip priceInput))

/-- The header row written by `save_results`. -/
def csvHeader : List String := ["Corridore", "Squadra", "Prezzo"]

/-- The field written for the `team` entry: `team if team else ''`
(Python falsiness: `None` and `''` give an empty field). -/
def renderTeam : Option String → String
  | Option.none => ""
  | some t => if t = "" then "" else t

/-- The field written for the `price` entry: `price if price else ''`
(Python falsiness: `None`, `0` and `''` give an empty field; an `int`
is rendered in decimal by the csv writer). -/
def renderPrice : PVal → String
  | PVal.none => ""
  | PVal.int n => if n = 0 then "" else toString n
  | PVal.str s => if s = "" then "" else s

/-- The data record `save_results` writes for one rider:
`[rider, team if team else '', price if price else '']`. -/
def savedRecord (rider : String) (a : Assignment) : List String :=
  [rider, renderTeam a.team, renderPrice a.price]

/-- `save_results` of both front-ends, modelled at the record level:
the header row followed by one data record per rider, in rider order,
pairing `riders[i]` with `results[i]`. -/
def save_results (results : List Assignment) (riders : List String) : List (List String) :=
  csvHeader :: List.zipWith savedRecord riders results

/-- The name `read_riders_from_csv` extracts from one row:
the stripped first field when it is non-empty
(`if row and row[0].strip()`), nothing otherwise. -/
def rowName (row : List String) : Option String :=
  match row with
  | [] => Option.none
  | c :: _ => if pyStrip c = "" then Option.none else some (pyStrip c)

/-- `read_riders_from_csv`, modelled at the record level: the stripped
first field of every row whose first field strips to a non-empty string;
no row is ever skipped as a header. -/
def read_riders_from_csv (rows : List (List String)) : List String :=
  rows.filterMap rowName

/-- The output file name `auction.py` uses unconditionally:
`f"{base_name}_auction_results.csv"`. -/
def lineOutputFile (base : String) : String := base ++ "_auction_results.csv"

/-- The numbered candidate `f"{base_name}_auction_results_{counter}.csv"`
tried by `get_unique_output_file`. -/
def numberedOutputFile (base : String) (k : Nat) : String :=
  base ++ "_auction_results_" ++ toString k ++ ".csv"

/-- The `while True` loop of `get_unique_output_file`, trying counters
`k, k+1, ...` against the set of existing file names (modelled as a
list). The source loop is unbounded; fuel makes the model total, and
`Option.none` marks fuel exhaustion. -/
def uniqueLoop (existing : List String) (base : String) : Nat → Nat → Option String
  | 0, _ => Option.none
  | fuel + 1, k =>
      if numberedOutputFile base k ∈ existing then uniqueLoop existing base fuel (k + 1)
      else some (numberedOutputFile base k)

/-- `get_unique_output_file` of `auction_tui_backup.py`: the derived name
if it does not exist, otherwise the first unused numbered name starting
from counter 1. -/
def get_unique_output_file (existing : List String) (base : String) (fuel : Nat) :
    Option String :=
  if lineOutputFile base ∈ existing then uniqueLoop existing base fuel 1
  else some (lineOutputFile base)

/-- The four logical session actions, with the operator's console inputs
attached to `assign`. -/
inductive Action where
  | moveUp
  | moveDown
  | assign (teamInput priceInput : String)
  | quit
deriving DecidableEq, Repr

/-- The mutable session state of either front-end: the `results` list,
the cursor (`current_index`), and whether the loop has exited. -/
structure SessionState where
  results : List Assignment
  cursor : Nat
  ended : Bool
deriving DecidableEq, Repr

/-- The state both front-ends start from:
`results = [{'team': None, 'price': None} for _ in riders]`,
`current_index = 0`. -/
def initState (riders : List String) : SessionState :=
  ⟨riders.map (fun _ => unassigned), 0, false⟩

/-- One iteration of the `while True` loop in `auction.py` `main`:
arrow keys clamp at the boundaries; Enter stores the result of
`get_team_and_price` at the cursor (both fields, `None`/`None` on skip)
and then advances the cursor whenever it is not at the last index;
`q` exits the loop. -/
def lineStep (total : Nat) (s : SessionState) (a : Action) : SessionState :=
  if s.ended then s else
  match a with
  | Action.moveUp => if 0 < s.cursor then { s with cursor := s.cursor - 1 } else s
  | Action.moveDown => if s.cursor < total - 1 then { s with cursor := s.cursor + 1 } else s
  | Action.assign t p =>
      let entry : Assignment :=
        match get_team_and_price t p with
        | Option.none => unassigned
        | some (tm, pr) => ⟨some tm, pr⟩
      let s1 := { s with results := s.results.set s.cursor entry }
      if s1.cursor < total - 1 then { s1 with cursor := s1.cursor + 1 } else s1
  | Action.quit => { s with ended := true }

/-- The `AssignmentModal._confirm` result of the widget front-end:
`(team, price)` with both inputs stripped if the stripped team is
non-empty, else `None` (cancel and escape also yield `None`). -/
def tuiModal (teamInput priceInput : String) : Option (String × String) :=
  let team := pyStrip teamInput
  let price := pyStrip priceInput
  if team = "" then Option.none else some (team, price)

/-- One action of `AuctionApp` in `auction_tui_backup.py`:
`action_previous_rider` / `action_next_rider` clamp at the boundaries;
`_handle_assignment` does nothing on a `None` modal result, otherwise
stores the team and the raw price string at the cursor and advances the
cursor whenever it is not at the last index; `action_save_quit` exits. -/
def tuiStep (total : Nat) (s : SessionState) (a : Action) : SessionState :=
  if s.ended then s else
  match a with
  | Action.moveUp => if 0 < s.cursor then { s with cursor := s.cursor - 1 } else s
  | Action.moveDown => if s.cursor < total - 1 then { s with cursor := s.cursor + 1 } else s
  | Action.assign t p =>
      match tuiModal t p with
      | Option.none => s
      | some (tm, pr) =>
          let s1 := { s with results := s.results.set s.cursor ⟨some tm, PVal.str pr⟩ }
          if s1.cursor < total - 1 then { s1 with cursor := s1.cursor + 1 } else s1
  | Action.quit => { s with ended := true }

/-- Running the line-oriented front-end over a list of actions. -/
def lineRun (total : Nat) (s : SessionState) (acts : List Action) : SessionState :=
  acts.foldl (lineStep total) s

/-- Running the widget front-end over a list of actions. -/
def tuiRun (total : Nat) (s : SessionState) (acts : List Action) : SessionState :=
  acts.foldl (tuiStep total) s

/-- Interpreting a widget-front-end assignment in the line front-end's
representation: the stored raw price text, fed through the line
front-end's parse (`pyPrice`). Unassigned and integer values map to
themselves. -/
def toLineAssign (a : Assignment) : Assignment :=
  ⟨a.team,
    match a.price with
    | PVal.str s => pyPrice s
    | p => p⟩

/-- An action whose assignment (if any) carries a label that is
non-empty and not a skip token after stripping. -/
def nonSkipAction : Action → Prop
  | Action.assign t _ => pyStrip t ≠ "" ∧ pyLower (pyStrip t) ∉ skipTokens
  | _ => True

/-- The simulation relation between a line-front-end state and a
widget-front-end state: same cursor, same ended flag, and the line
results are the widget results with each stored raw price parsed. -/
def frontRel (s t : SessionState) : Prop :=
  s.cursor = t.cursor ∧ s.ended = t.ended ∧ s.results = t.results.map toLineAssign

/-! ## Helper lemmas -/

theorem gtap_nonskip (t p : String) (h1 : pyStrip t ≠ "")
    (h2 : pyLower (pyStrip t) ∉ skipTokens) :
    get_team_and_price t p = some (pyStrip t, pyPrice (pyStrip p)) := by
  simp only [get_team_and_price]
  rw [if_neg (fun h => h.elim h1 h2)]

theorem gtap_skip (t p : String)
    (h : pyStrip t = "" ∨ pyLower (pyStrip t) ∈ skipTokens) :
    get_team_and_price t p = Option.none := by
  simp only [get_team_and_price]
  rw [if_pos h]

theorem tuiModal_nonskip (t p : String) (h : pyStrip t ≠ "") :
    tuiModal t p = some (pyStrip t, pyStrip p) := by
  simp only [tuiModal]
  rw [if_neg h]

theorem tuiModal_skip (t p : String) (h : pyStrip t = "") :
    tuiModal t p = Option.none := by
  simp only [tuiModal]
  rw [if_pos h]

theorem lineStep_assign_results (total : Nat) (s : SessionState) (t p : String)
    (hEnd : s.ended = false) :
    (lineStep total s (Action.assign t p)).results =
      s.results.set s.cursor
        (match get_team_and_price t p with
         | Option.none => unassigned
         | some (tm, pr) => ⟨some tm, pr⟩) := by
  obtain ⟨rs, c, e⟩ := s
  simp only at hEnd
  subst hEnd
  simp only [lineStep]
  split
  · next h => exact absurd h (by simp)
  · split <;> rfl

theorem lineStep_assign_cursor (total : Nat) (s : SessionState) (t p : String)
    (hEnd : s.ended = false) :
    (lineStep total s (Action.assign t p)).cursor =
      if s.cursor < total - 1 then s.cursor + 1 else s.cursor := by
  obtain ⟨rs, c, e⟩ := s
  simp only at hEnd
  subst hEnd
  simp only [lineStep]
  split
  · next h => exact absurd h (by simp)
  · split <;> rfl

theorem tuiStep_skip_eq (total : Nat) (s : SessionState) (t p : String)
    (h : pyStrip t = "") :
    tuiStep total s (Action.assign t p) = s := by
  simp only [tuiStep, tuiModal_skip t p h]
  split <;> rfl

theorem tuiStep_assign_results (total : Nat) (s : SessionState) (t p : String)
    (hEnd : s.ended = false) (h : pyStrip t ≠ "") :
    (tuiStep total s (Action.assign t p)).results =
      s.results.set s.cursor ⟨some (pyStrip t), PVal.str (pyStrip p)⟩ := by
  obtain ⟨rs, c, e⟩ := s
  simp only at hEnd
  subst hEnd
  simp only [tuiStep, tuiModal_nonskip t p h]
  split
  · next hh => exact absurd hh (by simp)
  · split <;> rfl

theorem tuiStep_assign_cursor (total : Nat) (s : SessionState) (t p : String)
    (hEnd : s.ended = false) (h : pyStrip t ≠ "") :
    (tuiStep total s (Action.assign t p)).cursor =
      if s.cursor < total - 1 then s.cursor + 1 else s.cursor := by
  obtain ⟨rs, c, e⟩ := s
  simp only at hEnd
  subst hEnd
  simp only [tuiStep, tuiModal_nonskip t p h]
  split
  · next hh => exact absurd hh (by simp)
  · split <;> rfl

theorem get_set_self (l : List Assignment) (n : Nat) (a : Assignment)
    (h : n < l.length) : (l.set n a)[n]? = some a := by
  rw [List.getElem?_set_self']
  simp [List.getElem?_eq_getElem h]

/-! ## Claims -/

/-- C1: for every Assign whose label input is non-empty and not a skip
token, the assignment at the cursor gets the trimmed label, and its
value is the parsed integer when the price input parses as an integer,
the integer 0 when the price input is empty, and otherwise the trimmed
price text verbatim (malformed numeric input degrades to text, never a
failure). -/
theorem c1_assign_value_cases (total : Nat) (s : SessionState) (t p : String)
    (hEnd : s.ended = false) (hCur : s.cursor < s.results.length)
    (hLbl : pyStrip t ≠ "") (hSkip : pyLower (pyStrip t) ∉ skipTokens) :
    (∀ n : Int, pyParseInt (pyStrip p) = some n →
      (lineStep total s (Action.assign t p)).results[s.cursor]? =
        some ⟨some (pyStrip t), PVal.int n⟩) ∧
    (pyStrip p = "" →
      (lineStep total s (Action.assign t p)).results[s.cursor]? =
        some ⟨some (pyStrip t), PVal.int 0⟩) ∧
    (pyStrip p ≠ "" → pyParseInt (pyStrip p) = Option.none →
      (lineStep total s (Action.assign t p)).results[s.cursor]? =
        some ⟨some (pyStrip t), PVal.str (pyStrip p)⟩) := by
  have hres := lineStep_assign_results total s t p hEnd
  rw [gtap_nonskip t p hLbl hSkip] at hres
  refine ⟨fun n hn => ?_, fun he => ?_, fun hne hn => ?_⟩
  · have hps : pyStrip p ≠ "" := by
      intro h
      rw [h] at hn
      simp [pyParseInt, pyDigitPart] at hn
    rw [hres]
    simp only [pyPrice, if_neg hps, hn]
    exact get_set_self _ _ _ hCur
  · rw [hres]
    simp only [pyPrice, if_pos he]
    exact get_set_self _ _ _ hCur
  · rw [hres]
    simp only [pyPrice, if_neg hne, hn]
    exact get_set_self _ _ _ hCur

theorem c1_witness :
    (lineStep 1 ⟨[unassigned], 0, false⟩ (Action.assign " TeamA " " 12 ")).results[0]? =
      some ⟨some (pyStrip " TeamA "), PVal.int 12⟩ :=
  (c1_assign_value_cases 1 ⟨[unassigned], 0, false⟩ " TeamA " " 12 "
    rfl (by decide) (by decide) (by decide)).1 12 (by decide)

/-- C2 counterexample: in the widget front-end, an Assign with an empty
label leaves a previously assigned entry untouched instead of clearing
both fields. -/
theorem c2_tui_skip_not_cleared :
    pyStrip "" = "" ∧
    (tuiStep 1 ⟨[⟨some "X", PVal.int 5⟩], 0, false⟩
        (Action.assign "" "0")).results[0]? = some ⟨some "X", PVal.int 5⟩ ∧
    (tuiStep 1 ⟨[⟨some "X", PVal.int 5⟩], 0, false⟩
        (Action.assign "" "0")).results[0]? ≠ some unassigned ∧
    (tuiStep 1 (initState ["A"]) (Action.assign "salta" "")).results[0]? =
      some ⟨some "salta", PVal.str ""⟩ := by
  decide

/-- C2 (amended): in the line-oriented front-end, an Assign whose label
input is empty or a case-insensitive skip token sets both fields of the
assignment at the cursor to unassigned, regardless of prior state; the
widget front-end instead leaves the prior assignment unchanged on an
empty label and stores a skip token as an ordinary label. -/
theorem c2_line_skip_clears (total : Nat) (s : SessionState) (t p : String)
    (hEnd : s.ended = false) (hCur : s.cursor < s.results.length)
    (hSkip : pyStrip t = "" ∨ pyLower (pyStrip t) ∈ skipTokens) :
    (lineStep total s (Action.assign t p)).results[s.cursor]? = some unassigned := by
  have hres := lineStep_assign_results total s t p hEnd
  rw [gtap_skip t p hSkip] at hres
  rw [hres]
  exact get_set_self _ _ _ hCur

theorem c2_witness :
    (lineStep 1 ⟨[⟨some "X", PVal.int 5⟩], 0, false⟩
        (Action.assign " SALTA " "7")).results[0]? = some unassigned :=
  c2_line_skip_clears 1 ⟨[⟨some "X", PVal.int 5⟩], 0, false⟩ " SALTA " "7"
    rfl (by decide) (by decide)

/-- C3 counterexample: in the line-oriented front-end a skip Assign
(empty label) still advances the cursor from 0 to 1, so auto-advance is
not restricted to successful (non-skip) assignments. -/
theorem c3_line_skip_advances :
    get_team_and_price "" "" = Option.none ∧
    (lineStep 2 (initState ["A", "B"]) (Action.assign "" "")).cursor = 1 ∧
    (initState ["A", "B"]).cursor = 0 := by
  decide

/-- C3 (amended): in the widget front-end the cursor auto-advances by
exactly 1 after an Assign iff the assignment was non-skip and the cursor
is not at the last index, and a skip leaves the whole state unchanged;
in the line-oriented front-end every Assign, skip included, advances the
cursor when it is not at the last index; in both, an Assign at the last
index leaves the cursor at the last index. -/
theorem c3_advance_characterization (total : Nat) (s : SessionState) (t p : String)
    (hEnd : s.ended = false) :
    ((lineStep total s (Action.assign t p)).cursor =
      if s.cursor < total - 1 then s.cursor + 1 else s.cursor) ∧
    (pyStrip t = "" → tuiStep total s (Action.assign t p) = s) ∧
    (pyStrip t ≠ "" →
      (tuiStep total s (Action.assign t p)).cursor =
        if s.cursor < total - 1 then s.cursor + 1 else s.cursor) ∧
    (s.cursor = total - 1 →
      (lineStep total s (Action.assign t p)).cursor = s.cursor ∧
      (tuiStep total s (Action.assign t p)).cursor = s.cursor) := by
  refine ⟨lineStep_assign_cursor total s t p hEnd, tuiStep_skip_eq total s t p,
    tuiStep_assign_cursor total s t p hEnd, fun hLast => ⟨?_, ?_⟩⟩
  · rw [lineStep_assign_cursor total s t p hEnd, hLast]
    simp
  · by_cases h : pyStrip t = ""
    · rw [tuiStep_skip_eq total s t p h]
    · rw [tuiStep_assign_cursor total s t p hEnd h, hLast]
      simp

theorem c3_witness :
    (tuiStep 2 ⟨[unassigned, unassigned], 0, false⟩ (Action.assign " " "9")) =
      ⟨[unassigned, unassigned], 0, false⟩ :=
  (c3_advance_characterization 2 ⟨[unassigned, unassigned], 0, false⟩ " " "9"
    rfl).2.1 (by decide)

theorem filterMap_savedRecords :
    ∀ (riders : List String) (results : List Assignment),
      results.length = riders.length →
      (∀ r ∈ riders, pyStrip r = r ∧ r ≠ "") →
      (List.zipWith savedRecord riders results).filterMap rowName = riders := by
  intro riders
  induction riders with
  | nil => intro results _ _; simp
  | cons r rs ih =>
      intro results hlen hnames
      cases results with
      | nil => simp at hlen
      | cons a as =>
          have hr := hnames r (List.mem_cons_self r rs)
          have hrow : rowName (savedRecord r a) = some r := by
            simp only [rowName, savedRecord]
            rw [hr.1, if_neg hr.2]
          simp only [List.zipWith_cons_cons, List.filterMap_cons, hrow]
          rw [ih as (by simpa using hlen)
            (fun x hx => hnames x (List.mem_cons_of_mem r hx))]

/-- C4 counterexample: exporting a fully-assigned single-entity session
and re-parsing it with the CSV loader yields the header name as an extra
leading entity, not the same name list. -/
theorem c4_header_breaks_roundtrip :
    read_riders_from_csv (save_results [⟨some "T", PVal.int 5⟩] ["A"]) =
      ["Corridore", "A"] ∧
    read_riders_from_csv (save_results [⟨some "T", PVal.int 5⟩] ["A"]) ≠ ["A"] := by
  decide

/-- C4 (amended): for every fully-assigned session over a non-empty
entity sequence whose names are non-empty and whitespace-trimmed (as the
loaders produce them), re-parsing the exported rows with the CSV loader
yields the header's name field `Corridore` followed by exactly the
entity names in the same order. -/
theorem c4_roundtrip_header_cons (riders : List String) (results : List Assignment)
    (_hne : riders ≠ []) (hlen : results.length = riders.length)
    (_hfull : ∀ a ∈ results, a.team ≠ Option.none)
    (hnames : ∀ r ∈ riders, pyStrip r = r ∧ r ≠ "") :
    read_riders_from_csv (save_results results riders) = "Corridore" :: riders := by
  have hrow : rowName csvHeader = some "Corridore" := by decide
  simp only [read_riders_from_csv, save_results, List.filterMap_cons, hrow]
  rw [filterMap_savedRecords riders results hlen hnames]

theorem c4_witness :
    read_riders_from_csv
        (save_results [⟨some "TeamA", PVal.int 500⟩, ⟨some "B", PVal.str "x"⟩]
          ["Tadej POGACAR", "Jonas VINGEGAARD"]) =
      "Corridore" :: ["Tadej POGACAR", "Jonas VINGEGAARD"] :=
  c4_roundtrip_header_cons ["Tadej POGACAR", "Jonas VINGEGAARD"]
    [⟨some "TeamA", PVal.int 500⟩, ⟨some "B", PVal.str "x"⟩]
    (by decide) (by decide) (by decide) (by decide)

theorem uniqueLoop_spec (existing : List String) (base : String) :
    ∀ (fuel k : Nat) (name : String), uniqueLoop existing base fuel k = some name →
      name ∉ existing ∧
      ∃ d : Nat, name = numberedOutputFile base (k + d) ∧
        ∀ j, k ≤ j → j < k + d → numberedOutputFile base j ∈ existing := by
  intro fuel
  induction fuel with
  | zero => intro k name h; simp [uniqueLoop] at h
  | succ f ih =>
      intro k name h
      simp only [uniqueLoop] at h
      by_cases hm : numberedOutputFile base k ∈ existing
      · rw [if_pos hm] at h
        obtain ⟨hnot, d, hname, hall⟩ := ih (k + 1) name h
        refine ⟨hnot, d + 1, ?_, ?_⟩
        · rw [hname]; congr 1; omega
        · intro j hj1 hj2
          rcases Nat.eq_or_lt_of_le hj1 with heq | hlt
          · rw [← heq]; exact hm
          · exact hall j hlt (by omega)
      · rw [if_neg hm] at h
        injection h with h
        subst h
        exact ⟨hm, 0, by rw [Nat.add_zero], fun j hj1 hj2 => by omega⟩

/-- C5 counterexample: the line-oriented front-end derives its output
name with no disambiguation, so when `input_auction_results.csv` already
exists it writes to that very name rather than to
`input_auction_results_1.csv`. -/
theorem c5_line_exporter_collides :
    lineOutputFile "input" = "input_auction_results.csv" ∧
    lineOutputFile "input" ∈ ["input_auction_results.csv"] ∧
    lineOutputFile "input" ≠ "input_auction_results_1.csv" := by
  decide

/-- C5 (amended): the widget front-end's `get_unique_output_file` never
returns the name of an existing file: it returns the derived name when
that is unused, and otherwise the first numbered name, counting 1, 2,
... upward, that is unused (so every earlier numbered name exists); the
line-oriented front-end instead uses the derived name unconditionally. -/
theorem c5_unique_output_name (existing : List String) (base : String) (fuel : Nat)
    (name : String) (hres : get_unique_output_file existing base fuel = some name) :
    name ∉ existing ∧
    (lineOutputFile base ∉ existing → name = lineOutputFile base) ∧
    (lineOutputFile base ∈ existing →
      ∃ k, 1 ≤ k ∧ name = numberedOutputFile base k ∧
        ∀ j, 1 ≤ j → j < k → numberedOutputFile base j ∈ existing) := by
  by_cases hm : lineOutputFile base ∈ existing
  · simp only [get_unique_output_file, if_pos hm] at hres
    obtain ⟨hnot, d, hname, hall⟩ := uniqueLoop_spec existing base fuel 1 name hres
    exact ⟨hnot, fun h => absurd hm h,
      fun _ => ⟨1 + d, by omega, hname, fun j h1 h2 => hall j h1 h2⟩⟩
  · simp only [get_unique_output_file, if_neg hm] at hres
    injection hres with hres
    subst hres
    exact ⟨hm, fun _ => rfl, fun h => absurd h hm⟩

theorem c5_witness :
    "b_auction_results_2.csv" ∉
      ["b_auction_results.csv", "b_auction_results_1.csv"] :=
  (c5_unique_output_name ["b_auction_results.csv", "b_auction_results_1.csv"]
    "b" 3 "b_auction_results_2.csv" (by decide)).1

/-- C7: the exported table is one header record of the three field
names followed by exactly one data record per entity in entity order,
with record `i + 1` pairing entity `i` with its assignment; unassigned
label and value are emitted as empty fields, and the two-entity scenario
(one assigned `TeamA` at 500, one skipped) yields exactly the records of
the specification. -/
theorem c7_export_shape (riders : List String) (results : List Assignment)
    (hlen : results.length = riders.length) :
    (save_results results riders).length = riders.length + 1 ∧
    (save_results results riders).head? = some csvHeader ∧
    csvHeader = ["Corridore", "Squadra", "Prezzo"] ∧
    (∀ (i : Nat) (r : String) (a : Assignment),
      riders[i]? = some r → results[i]? = some a →
      (save_results results riders)[i + 1]? =
        some [r, renderTeam a.team, renderPrice a.price]) ∧
    renderTeam Option.none = "" ∧ renderPrice PVal.none = "" ∧
    save_results [⟨some "TeamA", PVal.int 500⟩, unassigned]
        ["Tadej POGACAR", "Jonas VINGEGAARD"] =
      [["Corridore", "Squadra", "Prezzo"], ["Tadej POGACAR", "TeamA", "500"],
        ["Jonas VINGEGAARD", "", ""]] := by
  refine ⟨?_, rfl, rfl, ?_, rfl, rfl, by decide⟩
  · simp [save_results, List.length_zipWith, hlen]
  · intro i r a hr ha
    simp only [save_results, List.getElem?_cons_succ, List.getElem?_zipWith', hr, ha,
      Option.map_some', Option.bind_some]
    rfl

theorem c7_witness :
    (save_results [⟨some "TeamA", PVal.int 500⟩, unassigned]
        ["Tadej POGACAR", "Jonas VINGEGAARD"])[0 + 1]? =
      some ["Tadej POGACAR", renderTeam (some "TeamA"), renderPrice (PVal.int 500)] :=
  (c7_export_shape ["Tadej POGACAR", "Jonas VINGEGAARD"]
    [⟨some "TeamA", PVal.int 500⟩, unassigned] (by decide)).2.2.2.1 0
    "Tadej POGACAR" ⟨some "TeamA", PVal.int 500⟩ (by decide) (by decide)

/-- C8: in both front-ends, MoveUp at cursor 0 and MoveDown at the last
index leave the state's cursor unchanged, and navigation clamps: MoveUp
never increases the cursor and MoveDown never decreases it (no
wrap-around). -/
theorem c8_navigation_clamps (total : Nat) (res : List Assignment) (c : Nat) :
    lineStep total ⟨res, 0, false⟩ Action.moveUp = ⟨res, 0, false⟩ ∧
    tuiStep total ⟨res, 0, false⟩ Action.moveUp = ⟨res, 0, false⟩ ∧
    (lineStep total ⟨res, total - 1, false⟩ Action.moveDown).cursor = total - 1 ∧
    (tuiStep total ⟨res, total - 1, false⟩ Action.moveDown).cursor = total - 1 ∧
    (lineStep total ⟨res, c, false⟩ Action.moveUp).cursor ≤ c ∧
    c ≤ (lineStep total ⟨res, c, false⟩ Action.moveDown).cursor ∧
    (tuiStep total ⟨res, c, false⟩ Action.moveUp).cursor ≤ c ∧
    c ≤ (tuiStep total ⟨res, c, false⟩ Action.moveDown).cursor := by
  refine ⟨rfl, rfl, by simp [lineStep], by simp [tuiStep], ?_, ?_, ?_, ?_⟩
  · by_cases h0 : 0 < c <;> simp [lineStep, h0]
  · by_cases h0 : c < total - 1 <;> simp [lineStep, h0]
  · by_cases h0 : 0 < c <;> simp [tuiStep, h0]
  · by_cases h0 : c < total - 1 <;> simp [tuiStep, h0]

theorem lineStep_cursor_lt (total : Nat) (s : SessionState) (a : Action)
    (h : s.cursor < total) : (lineStep total s a).cursor < total := by
  obtain ⟨rs, c, e⟩ := s
  simp only at h
  cases e
  case true => exact h
  case false =>
    cases a with
    | moveUp => by_cases h0 : 0 < c <;> simp [lineStep, h0] <;> omega
    | moveDown => by_cases h0 : c < total - 1 <;> simp [lineStep, h0] <;> omega
    | quit => exact h
    | assign t p => by_cases h0 : c < total - 1 <;> simp [lineStep, h0] <;> omega

theorem tuiStep_cursor_lt (total : Nat) (s : SessionState) (a : Action)
    (h : s.cursor < total) : (tuiStep total s a).cursor < total := by
  obtain ⟨rs, c, e⟩ := s
  simp only at h
  cases e
  case true => exact h
  case false =>
    cases a with
    | moveUp => by_cases h0 : 0 < c <;> simp [tuiStep, h0] <;> omega
    | moveDown => by_cases h0 : c < total - 1 <;> simp [tuiStep, h0] <;> omega
    | quit => exact h
    | assign t p =>
        cases htm : tuiModal t p with
        | none => simp only [tuiStep, htm]; exact h
        | some v =>
            obtain ⟨tm, pr⟩ := v
            by_cases h0 : c < total - 1 <;> simp [tuiStep, htm, h0] <;> omega

theorem foldl_preserves {P : SessionState → Prop}
    (step : SessionState → Action → SessionState)
    (hstep : ∀ s a, P s → P (step s a)) :
    ∀ (acts : List Action) (s : SessionState), P s → P (acts.foldl step s) := by
  intro acts
  induction acts with
  | nil => intro s h; exact h
  | cons a l ih => intro s h; exact ih (step s a) (hstep s a h)

/-- C9: for every non-empty entity sequence the session starts with
cursor 0 and every assignment unassigned, and after any sequence of
actions in either front-end the cursor remains a valid index below the
sequence length. -/
theorem c9_init_and_cursor_range (riders : List String) (acts : List Action)
    (hne : 1 ≤ riders.length) :
    (initState riders).cursor = 0 ∧
    (∀ a ∈ (initState riders).results, a = unassigned) ∧
    (lineRun riders.length (initState riders) acts).cursor < riders.length ∧
    (tuiRun riders.length (initState riders) acts).cursor < riders.length := by
  refine ⟨rfl, ?_, ?_, ?_⟩
  · intro a ha
    obtain ⟨x, _, hx⟩ := List.mem_map.mp ha
    exact hx.symm
  · exact foldl_preserves (lineStep riders.length)
      (fun s a h => lineStep_cursor_lt riders.length s a h) acts (initState riders) hne
  · exact foldl_preserves (tuiStep riders.length)
      (fun s a h => tuiStep_cursor_lt riders.length s a h) acts (initState riders) hne

theorem c9_witness :
    (lineRun 1 (initState ["A"]) [Action.moveDown, Action.moveUp]).cursor < 1 :=
  (c9_init_and_cursor_range ["A"] [Action.moveDown, Action.moveUp] (by decide)).2.2.1

/-- C10: a non-skip Assign with empty price input stores the integer 0,
the exporter renders the integer 0 as an empty field, and the resulting
data record is identical to the record of an assignment whose value is
unassigned. -/
theorem c10_zero_price_empty_field (t p r : String) (team : Option String)
    (hLbl : pyStrip t ≠ "") (hSkip : pyLower (pyStrip t) ∉ skipTokens)
    (hEmpty : pyStrip p = "") :
    get_team_and_price t p = some (pyStrip t, PVal.int 0) ∧
    renderPrice (PVal.int 0) = "" ∧
    savedRecord r ⟨team, PVal.int 0⟩ = savedRecord r ⟨team, PVal.none⟩ := by
  refine ⟨?_, by decide, ?_⟩
  · rw [gtap_nonskip t p hLbl hSkip, hEmpty]
    rfl
  · simp [savedRecord, renderPrice]

theorem c10_witness :
    get_team_and_price "T" "  " = some (pyStrip "T", PVal.int 0) :=
  (c10_zero_price_empty_field "T" "  " "r" (some "x")
    (by decide) (by decide) (by decide)).1

theorem frontRel_step (total : Nat) (s t : SessionState) (a : Action)
    (hns : nonSkipAction a) (h : frontRel s t) :
    frontRel (lineStep total s a) (tuiStep total t a) := by
  obtain ⟨hc, he, hr⟩ := h
  obtain ⟨rs, cs, es⟩ := s
  obtain ⟨rt, ct, et⟩ := t
  simp only at hc he hr
  subst hc
  subst he
  subst hr
  cases es
  case true => exact ⟨rfl, rfl, rfl⟩
  case false =>
    cases a with
    | moveUp =>
        by_cases h0 : 0 < cs <;> simp [lineStep, tuiStep, frontRel, h0]
    | moveDown =>
        by_cases h0 : cs < total - 1 <;> simp [lineStep, tuiStep, frontRel, h0]
    | quit => exact ⟨rfl, rfl, rfl⟩
    | assign tI pI =>
        obtain ⟨h1, h2⟩ := hns
        have hg := gtap_nonskip tI pI h1 h2
        have hm := tuiModal_nonskip tI pI h1
        by_cases h0 : cs < total - 1 <;>
          simp [lineStep, tuiStep, frontRel, hg, hm, h0, List.map_set, toLineAssign]

theorem frontRel_run (total : Nat) :
    ∀ (acts : List Action), (∀ a ∈ acts, nonSkipAction a) →
      ∀ s t, frontRel s t → frontRel (lineRun total s acts) (tuiRun total t acts) := by
  intro acts
  induction acts with
  | nil => intro _ s t h; exact h
  | cons a l ih =>
      intro hns s t h
      exact ih (fun x hx => hns x (List.mem_cons_of_mem a hx))
        (lineStep total s a) (tuiStep total t a)
        (frontRel_step total s t a (hns a (List.mem_cons_self a l)) h)

/-- C6 counterexample: the two front-ends are not the same state
machine: fed the identical skip Assign from the identical initial
session, the line-oriented front-end advances the cursor while the
widget front-end leaves it in place. -/
theorem c6_skip_divergence :
    (lineRun 2 (initState ["A", "B"]) [Action.assign "" ""]).cursor = 1 ∧
    (tuiRun 2 (initState ["A", "B"]) [Action.assign "" ""]).cursor = 0 ∧
    (lineRun 2 (initState ["A", "B"]) [Action.assign "" ""]).cursor ≠
      (tuiRun 2 (initState ["A", "B"]) [Action.assign "" ""]).cursor := by
  decide

/-- C6 (amended): restricted to action sequences whose Assign actions
all carry a non-empty, non-skip-token label, the two front-ends agree on
the final cursor and ended flag settings, and their final assignment
tables agree up to value representation: the line-oriented table is the
widget table with each stored raw price text parsed by the line
front-end's rule. On skip Assigns the two front-ends diverge. -/
theorem c6_nonskip_equivalence (riders : List String) (acts : List Action)
    (hns : ∀ a ∈ acts, nonSkipAction a) :
    (lineRun riders.length (initState riders) acts).cursor =
      (tuiRun riders.length (initState riders) acts).cursor ∧
    (lineRun riders.length (initState riders) acts).ended =
      (tuiRun riders.length (initState riders) acts).ended ∧
    (lineRun riders.length (initState riders) acts).results =
      (tuiRun riders.length (initState riders) acts).results.map toLineAssign := by
  have hinit : frontRel (initState riders) (initState riders) := by
    refine ⟨rfl, rfl, ?_⟩
    simp [initState, List.map_map, Function.comp, toLineAssign, unassigned]
  exact frontRel_run riders.length acts hns (initState riders) (initState riders) hinit

theorem c6_witness :
    (lineRun 2 (initState ["A", "B"]) [Action.assign "T" "5", Action.quit]).cursor =
      (tuiRun 2 (initState ["A", "B"]) [Action.assign "T" "5", Action.quit]).cursor :=
  (c6_nonskip_equivalence ["A", "B"] [Action.assign "T" "5", Action.quit]
    (fun a ha => by
      rcases List.mem_cons.mp ha with rfl | ha2
      · exact ⟨by decide, by decide⟩
      · rcases List.mem_cons.mp ha2 with rfl | ha3
        · trivial
        · cases ha3)).1

end Auction
